import Mathlib

/-!
The tailbone command-line wrapper: descriptor rewriting and action dispatch

A shallow embedding of `src/tailbone.go`.

* Go strings that are inspected character by character (file contents, the
  token read at the prompt, printed text) are `Text = List Char`; the two
  patterns only mention ASCII characters, so nothing depends on the encoding.
* Paths, command names, arguments and error messages are `String`.
* Every answer of the operating system (`os.Stat`, `exec.LookPath`,
  `ioutil.ReadFile`, `fmt.Scanf`, `cmd.Start`, `os.Open`, `os.Create`) is a
  field of `World`; every observable action is an `Effect` in a trace.
* The concurrent forwarding of subprocess output in `pipeCmd` is not modelled.
-/

namespace Tailbone

/-- Inspected text: a Go string seen as its sequence of characters. -/
abbrev Text := List Char

/-! ## Constants (tailbone.go 141-164) -/

/-- The sentinel application identifier, `DEFAULT_APPLICATION`. -/
def DEFAULT_APPLICATION : Text := "your-application-id".toList

/-- The starter page, `INDEX_TEMPLATE`. -/
def INDEX_TEMPLATE : Text :=
  "<!doctype html>\n<html>\n<head></head>\n<body>\nhello tailbone\n</body>\n</html>\n".toList

/-- The usage text, `USAGE_TEMPLATE`. -/
def USAGE_TEMPLATE : Text :=
  ("\ntailbone init:\n  Initialize tailbone\ntailbone serve:\n  Serve tailbone locally\n" ++
   "tailbone deploy \x7bversion_name\x7d:\n  Deploy tailbone to AppEngine\n" ++
   "tailbone update:\n  Update the version of tailbone to latest\n" ++
   "tailbone version:\n  Get the version of tailbone\n\n").toList

/-! ## The two patterns (tailbone.go 16-19)

Both patterns have the shape `^key[ \t]*([a-zA-Z0-9-]+)[ \t]*` and are compiled
with `regexp.MustCompile`, that is without the `m` flag: `^` holds at offset 0
of the text only. Every quantifier is greedy and the character classes of
neighbouring pieces are disjoint, so the preferred match is the one that takes
each run as long as possible. -/

/-- The class `[ \t]`. -/
def isBlank (c : Char) : Bool := c == ' ' || c == '\t'

/-- The class `[a-zA-Z0-9-]`. -/
def isIdentChar (c : Char) : Bool :=
  ('a' ≤ c && c ≤ 'z') || ('A' ≤ c && c ≤ 'Z') || ('0' ≤ c && c ≤ '9') || c == '-'

/-- Consume the literal `key` at the front of `s`. -/
def dropLiteral : Text → Text → Option Text
  | [], s => some s
  | _ :: _, [] => none
  | k :: ks, c :: cs => if k = c then dropLiteral ks cs else none

/-- A successful match: the matched text, capture group 1, and the text after
the match. -/
structure Match where
  whole : Text
  capture : Text
  rest : Text
  deriving DecidableEq, Repr

/-- Match `^key[ \t]*([a-zA-Z0-9-]+)[ \t]*` against `s`, at offset 0. -/
def matchField (key : Text) (s : Text) : Option Match :=
  match dropLiteral key s with
  | none => none
  | some r1 =>
    let r2 := r1.dropWhile isBlank
    let cap := r2.takeWhile isIdentChar
    let r3 := r2.dropWhile isIdentChar
    if cap = [] then none
    else
      some { whole := key ++ r1.takeWhile isBlank ++ cap ++ r3.takeWhile isBlank
             capture := cap
             rest := r3.dropWhile isBlank }

/-- The pattern `^application:[ \t]*([a-zA-Z0-9-]+)[ \t]*`. -/
def reApplication : Text → Option Match := matchField "application:".toList

/-- The pattern `^version:[ \t]*([a-zA-Z0-9-]+)[ \t]*`. -/
def reVersion : Text → Option Match := matchField "version:".toList

/-- The method `FindStringSubmatch`: the match and its one group, or the nil
slice when the pattern does not match. -/
def FindStringSubmatch (re : Text → Option Match) (s : Text) : List Text :=
  match re s with
  | some m => [m.whole, m.capture]
  | none => []

/-- The method `ReplaceAllStringFunc` for a pattern that starts with `^`: the
only offset at which such a pattern can match is 0, so at most one match is
replaced and the text after it is copied. -/
def ReplaceAllStringFunc (re : Text → Option Match) (s : Text) (repl : Text → Text) : Text :=
  match re s with
  | some m => repl m.whole ++ m.rest
  | none => s

/-! ## Operating-system answers, effects and errors -/

/-- The three outcomes of `os.Stat` the program distinguishes: no error,
an error for which `os.IsNotExist` holds, any other error. -/
inductive StatResult where
  | ok
  | notExist
  | otherError
  deriving DecidableEq, Repr

/-- A name in the file system: no entry of that name, or an entry together with
the answer `os.Stat` gives for it. `os.Stat` follows symbolic links, so an
entry that is a dangling link answers `notExist` and an entry that links to
itself answers `otherError`. -/
inductive Entry where
  | absent
  | present (answer : StatResult)
  deriving DecidableEq, Repr

/-- Everything the program asks of its environment during one invocation. -/
structure World where
  /-- The name the program was started under, `os.Args[0]`. -/
  argv0 : String
  /-- The positional arguments, `flag.Args()`. -/
  args : List String
  /-- The entry behind a path. -/
  entry : String → Entry
  /-- Whether `exec.LookPath` finds the executable. -/
  lookPath : String → Bool
  /-- Whether the pipes can be set up and the command started. -/
  canStart : String → Bool
  /-- The answer of `ioutil.ReadFile`, `none` on error. -/
  readFile : String → Option Text
  /-- The token `fmt.Scanf("%s", ...)` stores, `none` when the scan fails and
  the variable keeps its value. -/
  scan : Option Text
  /-- The content behind `os.Open("tailbone/app.template.yaml")` once the
  checkout subprocess has run, `none` on error. -/
  openTemplate : Option Text
  /-- Whether `os.Create` succeeds for a path. -/
  canCreate : String → Bool

/-- The answer of `os.Stat` for a path: a missing entry answers `notExist`. -/
def World.stat (w : World) (path : String) : StatResult :=
  match w.entry path with
  | .absent => .notExist
  | .present answer => answer

/-- Error values `run` can return. -/
inductive Err where
  /-- An error made with `errors.New`. -/
  | new (message : String)
  /-- The error of a failed `os.Stat`. -/
  | stat (path : String) (result : StatResult)
  /-- The error of a command that could not be started. -/
  | start (command : String)
  deriving DecidableEq, Repr

/-- Observable actions, in the order they happen. -/
inductive Effect where
  /-- A subprocess was started. -/
  | spawn (command : String) (args : List String)
  /-- Text printed on standard output. -/
  | stdout (text : Text)
  /-- Text printed on standard error. -/
  | stderr (text : Text)
  /-- A line handed to the `log` package. -/
  | log (message : String)
  /-- An error value handed to `log.Println`. -/
  | logError (err : Err)
  /-- A read from standard input by `fmt.Scanf`. -/
  | scanf
  /-- A file was created or truncated and this content written to it. -/
  | writeFile (path : String) (content : Text)
  /-- A call of `os.Mkdir`. -/
  | mkdir (path : String)
  deriving DecidableEq, Repr

def AlreadyInitialized : Err := .new "Tailbone is already initialized."
def NotAGitRepo : Err := .new "Your current directory must be a git repo."
def SubmoduleCheckoutFailed : Err := .new "Problem checking out the tailbone git submodule."
def NotInitialized : Err := .new "Must run 'tailbone init' first."
def MissingDependency : Err :=
  .new "You must have the cloud sdk for python installed on your system. Download it at https://developers.google.com/cloud/sdk/"
def MissingGit : Err := .new "You must have git installed."
def MissingAppDescriptor : Err :=
  .new "Must have app.yaml, this can be copied from tailbone/app.template.yaml."
def MissingVersionArgument : Err :=
  .new "Must provide a version name. Example: tailbone deploy master"
def MalformedDescriptor : Err :=
  .new "Incorrectly formated app.yaml could not find application."

/-- The result of `run`: the returned error and the trace of effects. -/
structure Outcome where
  err : Option Err
  effects : List Effect
  deriving DecidableEq, Repr

/-- The function `pipeCmd` (tailbone.go 21-39): an error when the command
cannot be started, otherwise the command runs to its end and the result is nil
whatever its exit status. -/
def pipeCmd (w : World) (command : String) (args : List String) : Outcome :=
  if w.canStart command then ⟨none, [Effect.spawn command args]⟩
  else ⟨some (Err.start command), []⟩

/-- The arguments `git` is started with by `init`: the words of
`git submodule add -b reorg https://github.com/doug/tailbone.git` after the
first. -/
def checkoutArgs : List String :=
  ["submodule", "add", "-b", "reorg", "https://github.com/doug/tailbone.git"]

/-- The prompt printed before the application identifier is read. -/
def PROMPT : Text :=
  "You must enter an application id. If you haven't already created a project, do so now at http://cloud.google.com\n".toList

/-- The function `run` (tailbone.go 41-119). `flagUsage` is what the current
value of the variable `flag.Usage` prints. The result `err` is the named
result of the Go function: in the `init` branch the two `os.Stat` calls and
`pipeCmd` assign it (`=`), in the `deploy` and `update` branches every `err` is
a new variable of an inner scope (`:=`), in the `serve` branch `pipeCmd`
assigns it. -/
def run (w : World) (flagUsage : List Effect) (action : String) : Outcome :=
  if action = "init" then
    if w.stat "tailbone" = .ok then ⟨some AlreadyInitialized, []⟩
    else if w.stat ".git" = .notExist then ⟨some NotAGitRepo, []⟩
    else
      let checkout := pipeCmd w "git" checkoutArgs
      if checkout.err ≠ none then ⟨some SubmoduleCheckoutFailed, checkout.effects⟩
      else
        let copy : List Effect :=
          match w.openTemplate with
          | some template =>
            if w.canCreate "app.yaml" then [Effect.writeFile "app.yaml" template] else []
          | none => []
        match w.stat "app/index.html" with
        | .notExist =>
          let index : List Effect :=
            if w.canCreate "app/index.html" then
              [Effect.writeFile "app/index.html" INDEX_TEMPLATE]
            else []
          ⟨some (Err.stat "app/index.html" .notExist),
            checkout.effects ++ copy ++ [Effect.mkdir "app"] ++ index⟩
        | .ok => ⟨none, checkout.effects ++ copy⟩
        | .otherError => ⟨some (Err.stat "app/index.html" .otherError), checkout.effects ++ copy⟩
  else if action = "serve" then
    if w.stat "tailbone" = .notExist then ⟨some NotInitialized, []⟩
    else if w.lookPath "dev_appserver.py" = false then ⟨some MissingDependency, []⟩
    else pipeCmd w "dev_appserver.py" (w.args.drop 1 ++ ["tailbone"])
  else if action = "deploy" then
    if w.stat "tailbone" = .notExist then ⟨some NotInitialized, []⟩
    else if w.stat "app.yaml" = .notExist then ⟨some MissingAppDescriptor, []⟩
    else if w.lookPath "appcfg.py" = false then ⟨some MissingDependency, []⟩
    else
      let version := w.args.getD 1 ""
      if version = "" then ⟨some MissingVersionArgument, []⟩
      else
        match w.readFile "app.yaml" with
        | none => ⟨none, []⟩
        | some appyaml =>
          let submatch := FindStringSubmatch reApplication appyaml
          if submatch.length ≠ 2 then ⟨some MalformedDescriptor, []⟩
          else
            let application := submatch.getD 1 []
            let asked : Text × List Effect :=
              if application = DEFAULT_APPLICATION then
                let application := w.scan.getD application
                (ReplaceAllStringFunc reApplication appyaml
                    (fun _ => "application: ".toList ++ application),
                  [Effect.stdout PROMPT, Effect.scanf])
              else (appyaml, [])
            let appyaml := ReplaceAllStringFunc reVersion asked.1
              (fun _ => "version: ".toList ++ version.toList)
            ⟨none, asked.2 ++
              [Effect.writeFile "app.yaml" appyaml, Effect.stdout (version.toList ++ ['\n'])] ++
              (pipeCmd w "appcfg.py" ["update", "--oauth2", "tailbone"]).effects⟩
  else if action = "update" then
    if w.stat "tailbone" = .notExist then ⟨some NotInitialized, []⟩
    else if w.lookPath "git" = false then ⟨some MissingGit, []⟩
    else
      ⟨none, [Effect.log
        "Update doesn't work yet do this manually by updating the git submodule tailbone."]⟩
  else ⟨none, flagUsage⟩

/-- What the default value of `flag.Usage` prints when no flag is defined: the
header line of the standard library, on standard error. -/
def defaultUsage (w : World) : List Effect :=
  [Effect.stderr ("Usage of ".toList ++ w.argv0.toList ++ ":\n".toList)]

/-- The usage function `main` installs (tailbone.go 129-131). -/
def tailboneUsage : List Effect := [Effect.stdout USAGE_TEMPLATE]

/-- The function `main` (tailbone.go 121-139) after `flag.Parse()`: the exit
status of the process and the trace of effects. With no positional argument
`flag.Usage` is called while it still holds its default value; it is replaced
only afterwards. -/
def main (w : World) : Nat × List Effect :=
  if w.args.length < 1 then (1, defaultUsage w)
  else
    let cmdname := w.args.getD 0 ""
    let result := run w tailboneUsage cmdname
    match result.err with
    | some err => (1, result.effects ++ [Effect.logError err])
    | none => (0, result.effects)

/-! ## Vocabulary of the specification -/

/-- The lines of a text: the pieces between line breaks. -/
def splitLines : Text → List Text
  | [] => [[]]
  | c :: cs =>
    if c = '\n' then [] :: splitLines cs
    else
      match splitLines cs with
      | l :: ls => (c :: l) :: ls
      | [] => [[c]]

/-- The texts written to `app.yaml` during a run, in order. -/
def written : List Effect → List Text
  | [] => []
  | Effect.writeFile path content :: es =>
    if path = "app.yaml" then content :: written es else written es
  | _ :: es => written es

/-- The subprocesses started during a run, in order. -/
def spawned : List Effect → List (String × List String)
  | [] => []
  | Effect.spawn command args :: es => (command, args) :: spawned es
  | _ :: es => spawned es

/-- The first four checks of `deploy` pass: the checkout directory and
`app.yaml` are not reported missing, `appcfg.py` is found and a version
argument is given. -/
def deployReady (w : World) : Prop :=
  w.stat "tailbone" ≠ .notExist ∧ w.stat "app.yaml" ≠ .notExist ∧
    w.lookPath "appcfg.py" = true ∧ w.args.getD 1 "" ≠ ""

instance (w : World) : Decidable (deployReady w) := by
  unfold deployReady; infer_instance

/-- The content of `app.yaml` after a run, given its content before: the last
text written to it, if any. -/
def appYamlAfter (before : Text) (effects : List Effect) : Text :=
  (written effects).getLastD before

/-- The text `deploy` holds after the application step (tailbone.go 96-101):
the original text, or, when the captured identifier is the sentinel, the
replacement `application: ` followed by the scanned token (the sentinel itself
when the scan fails) and the text after the match. -/
def afterPrompt (w : World) (appyaml : Text) (m : Match) : Text :=
  if m.capture = DEFAULT_APPLICATION then
    "application: ".toList ++ w.scan.getD m.capture ++ m.rest
  else appyaml

/-- A world in which every file exists, every executable is found and starts,
`app.yaml` holds `appyaml`, and the prompt answers `scan`. -/
def sampleWorld (args : List String) (appyaml : Text) (scan : Option Text) : World where
  argv0 := "tailbone"
  args := args
  entry := fun _ => .present .ok
  lookPath := fun _ => true
  canStart := fun _ => true
  readFile := fun path => if path = "app.yaml" then some appyaml else none
  scan := scan
  openTemplate := none
  canCreate := fun _ => true

/-- A customised descriptor: `deploy v3`. -/
def worldCustomised : World :=
  sampleWorld ["deploy", "v3"] "application: my-app-123\nversion: old\n".toList none

/-- A descriptor whose application field is on the second line: `deploy v3`. -/
def worldSecondLine : World :=
  sampleWorld ["deploy", "v3"]
    "runtime: python27\napplication: my-app-123\nversion: old\n".toList none

/-- A descriptor holding the sentinel, and nothing to read at the prompt:
`deploy v2`. -/
def worldNoAnswer : World :=
  sampleWorld ["deploy", "v2"] "application: your-application-id\nversion: old\n".toList none

/-- A descriptor holding the sentinel, answered with `my-app-123`: `deploy v2`. -/
def worldAnswered : World :=
  sampleWorld ["deploy", "v2"] "application: your-application-id\nversion: old\n".toList
    (some "my-app-123".toList)

/-- A descriptor whose sentinel is followed by a space and a word, answered
with `my-app`: `deploy v2`. -/
def worldTrailingWord : World :=
  sampleWorld ["deploy", "v2"] "application: your-application-id foo\nversion: old\n".toList
    (some "my-app".toList)

/-- A descriptor without an application field: `deploy v2`. -/
def worldNoField : World :=
  sampleWorld ["deploy", "v2"] "runtime: python27\nversion: old\n".toList none

/-- A prepared project, `deploy` given no version. -/
def worldNoVersion : World :=
  sampleWorld ["deploy"] "application: my-app-123\nversion: old\n".toList none

/-- The match of the application pattern in the descriptor of `worldAnswered`. -/
def sentinelMatch : Match where
  whole := "application: your-application-id".toList
  capture := "your-application-id".toList
  rest := "\nversion: old\n".toList

/-- A git repository in which `tailbone` is a symbolic link to itself: the entry
exists, `os.Stat` fails on it with an error other than not-exist; everything
else is in place. -/
def worldLoopingMarker : World where
  argv0 := "tailbone"
  args := ["init"]
  entry := fun path => if path = "tailbone" then .present .otherError else .present .ok
  lookPath := fun _ => true
  canStart := fun _ => true
  readFile := fun _ => none
  scan := none
  openTemplate := none
  canCreate := fun _ => true

/-- A fresh git repository: only `.git` exists, `git` can be started, the
checkout brings a template, files can be created. -/
def worldFreshRepo : World where
  argv0 := "tailbone"
  args := ["init"]
  entry := fun path => if path = ".git" then .present .ok else .absent
  lookPath := fun _ => true
  canStart := fun _ => true
  readFile := fun _ => none
  scan := none
  openTemplate := some "application: your-application-id\nversion: master\n".toList
  canCreate := fun _ => true

/-! ## Facts about the patterns -/

theorem dropLiteral_append (key r : Text) : dropLiteral key (key ++ r) = some r := by
  induction key with
  | nil => cases r <;> rfl
  | cons k ks ih => simp [dropLiteral, ih]

theorem dropLiteral_eq_some {key s r : Text} (h : dropLiteral key s = some r) : s = key ++ r := by
  induction key generalizing s with
  | nil =>
    cases s <;> simp [dropLiteral] at h <;> simp [h]
  | cons k ks ih =>
    cases s with
    | nil => simp [dropLiteral] at h
    | cons c cs =>
      simp only [dropLiteral] at h
      split at h
      · next hk => rw [hk, ih h]; rfl
      · cases h

theorem ident_not_blank {c : Char} (h : isIdentChar c = true) : isBlank c = false := by
  cases hb : isBlank c with
  | false => rfl
  | true =>
    simp only [isBlank, Bool.or_eq_true, beq_iff_eq] at hb
    rcases hb with hb | hb <;> subst hb <;> revert h <;> decide

theorem head_dropWhile_false {p : Char → Bool} (l : Text) (c : Char)
    (h : (l.dropWhile p).head? = some c) : p c = false := by
  induction l with
  | nil => simp at h
  | cons a t ih =>
    by_cases ha : p a = true
    · simp [List.dropWhile, ha] at h; exact ih h
    · simp [List.dropWhile, ha] at h; subst h; simpa using ha

theorem all_takeWhile (p : Char → Bool) (l : Text) : ∀ c ∈ l.takeWhile p, p c = true := by
  intro c hc
  exact (List.mem_takeWhile_imp hc)

/-- Shape of a successful match. -/
theorem matchField_some {key s : Text} {m : Match} (h : matchField key s = some m) :
    ∃ b1 b2 : Text, s = key ++ b1 ++ m.capture ++ b2 ++ m.rest ∧
      m.whole = key ++ b1 ++ m.capture ++ b2 ∧
      (∀ c ∈ b1, isBlank c = true) ∧ (∀ c ∈ b2, isBlank c = true) ∧
      (∀ c ∈ m.capture, isIdentChar c = true) ∧ m.capture ≠ [] ∧
      (∀ c, m.rest.head? = some c → isBlank c = false) := by
  unfold matchField at h
  cases hd : dropLiteral key s with
  | none => simp [hd] at h
  | some r1 =>
    simp only [hd] at h
    split at h
    · cases h
    · next hcap =>
      cases h
      refine ⟨r1.takeWhile isBlank,
        ((r1.dropWhile isBlank).dropWhile isIdentChar).takeWhile isBlank, ?_, rfl,
        all_takeWhile _ _, all_takeWhile _ _, all_takeWhile _ _, hcap, ?_⟩
      · rw [dropLiteral_eq_some hd]
        simp only [List.append_assoc, List.takeWhile_append_dropWhile]
      · intro c hc
        exact head_dropWhile_false _ c hc

/-- The text a match was found in is the match followed by the rest. -/
theorem matchField_whole_rest {key s : Text} {m : Match} (h : matchField key s = some m) :
    s = m.whole ++ m.rest := by
  obtain ⟨b1, b2, hs, hw, -⟩ := matchField_some h
  rw [hw]; exact hs

theorem dropWhile_of_head_false {p : Char → Bool} {l : Text}
    (h : ∀ c, l.head? = some c → p c = false) : l.dropWhile p = l := by
  cases l with
  | nil => rfl
  | cons a t => simp [List.dropWhile, h a rfl]

theorem takeWhile_of_head_false {p : Char → Bool} {l : Text}
    (h : ∀ c, l.head? = some c → p c = false) : l.takeWhile p = [] := by
  cases l with
  | nil => rfl
  | cons a t => simp [List.takeWhile, h a rfl]

/-- Matching a field that reads `key`, one space, a non-empty identifier `x`
and then `rest`: the capture is `x` extended by the identifier characters
`rest` begins with. -/
theorem matchField_rewritten (key x rest : Text) (hx : x ≠ [])
    (hid : ∀ c ∈ x, isIdentChar c = true) :
    ∃ m, matchField key (key ++ ' ' :: (x ++ rest)) = some m ∧
      m.capture = x ++ rest.takeWhile isIdentChar := by
  obtain ⟨a, t, rfl⟩ := List.exists_cons_of_ne_nil hx
  have ha : isIdentChar a = true := hid a (by simp)
  have hb : isBlank a = false := ident_not_blank ha
  have hsp : isBlank ' ' = true := by decide
  have htk : ((a :: t) ++ rest).takeWhile isIdentChar = (a :: t) ++ rest.takeWhile isIdentChar :=
    List.takeWhile_append_of_pos hid
  have hdw : (' ' :: ((a :: t) ++ rest)).dropWhile isBlank = (a :: t) ++ rest := by
    simp [List.dropWhile, hsp, hb]
  have hm : (matchField key (key ++ ' ' :: ((a :: t) ++ rest))).map Match.capture =
      some ((a :: t) ++ rest.takeWhile isIdentChar) := by
    unfold matchField
    rw [dropLiteral_append]
    simp only [hdw, htk]
    rw [if_neg (by simp)]
    rfl
  cases hmf : matchField key (key ++ ' ' :: ((a :: t) ++ rest)) with
  | none => rw [hmf] at hm; cases hm
  | some m =>
    rw [hmf] at hm
    exact ⟨m, rfl, by simpa using hm⟩

theorem reVersion_of_a (t : Text) : reVersion ('a' :: t) = none := by
  have hk : "version:".toList = 'v' :: "ersion:".toList := rfl
  unfold reVersion matchField
  rw [hk]
  simp [dropLiteral]

theorem reApplication_head {s : Text} {m : Match} (h : reApplication s = some m) :
    ∃ t, s = 'a' :: t := by
  obtain ⟨b1, b2, hs, -⟩ := matchField_some h
  exact ⟨_, hs⟩

/-- The version substitution changes nothing in a text the application pattern
matches: both patterns are anchored at offset 0. -/
theorem replace_version_noop {s : Text} {m : Match} (h : reApplication s = some m)
    (repl : Text → Text) : ReplaceAllStringFunc reVersion s repl = s := by
  obtain ⟨t, rfl⟩ := reApplication_head h
  simp [ReplaceAllStringFunc, reVersion_of_a]

/-! ## The deploy branch, step by step -/

theorem run_deploy_read (w : World) (usage : List Effect) (appyaml : Text)
    (hr : deployReady w) (hread : w.readFile "app.yaml" = some appyaml) :
    run w usage "deploy" =
      match reApplication appyaml with
      | none => ⟨some MalformedDescriptor, []⟩
      | some m =>
        ⟨none, (if m.capture = DEFAULT_APPLICATION then [Effect.stdout PROMPT, Effect.scanf] else [])
          ++ [Effect.writeFile "app.yaml"
                (ReplaceAllStringFunc reVersion (afterPrompt w appyaml m)
                  (fun _ => "version: ".toList ++ (w.args.getD 1 "").toList)),
              Effect.stdout ((w.args.getD 1 "").toList ++ ['\n'])]
          ++ (pipeCmd w "appcfg.py" ["update", "--oauth2", "tailbone"]).effects⟩ := by
  obtain ⟨h1, h2, h3, h4⟩ := hr
  have h3f : ¬ (w.lookPath "appcfg.py" = false) := by simp [h3]
  unfold run
  rw [if_neg (by decide), if_neg (by decide), if_pos rfl, if_neg h1, if_neg h2, if_neg h3f]
  simp only [if_neg h4, hread]
  cases hm : reApplication appyaml with
  | none => simp [FindStringSubmatch, hm]
  | some m =>
    simp only [FindStringSubmatch, hm, afterPrompt, ReplaceAllStringFunc]
    by_cases hc : m.capture = DEFAULT_APPLICATION
    · simp [hc]
    · simp [hc]

theorem run_deploy_malformed (w : World) (usage : List Effect) (appyaml : Text)
    (hr : deployReady w) (hread : w.readFile "app.yaml" = some appyaml)
    (hm : reApplication appyaml = none) :
    run w usage "deploy" = ⟨some MalformedDescriptor, []⟩ := by
  rw [run_deploy_read w usage appyaml hr hread, hm]

theorem afterPrompt_version (w : World) (appyaml : Text) (m : Match)
    (hm : reApplication appyaml = some m) (repl : Text → Text) :
    ReplaceAllStringFunc reVersion (afterPrompt w appyaml m) repl = afterPrompt w appyaml m := by
  unfold afterPrompt
  split
  · simp [ReplaceAllStringFunc, reVersion_of_a,
      show "application: ".toList = 'a' :: "pplication: ".toList from rfl]
  · exact replace_version_noop hm repl

theorem run_deploy_found (w : World) (usage : List Effect) (appyaml : Text) (m : Match)
    (hr : deployReady w) (hread : w.readFile "app.yaml" = some appyaml)
    (hm : reApplication appyaml = some m) :
    run w usage "deploy" =
      ⟨none, (if m.capture = DEFAULT_APPLICATION then [Effect.stdout PROMPT, Effect.scanf] else [])
        ++ [Effect.writeFile "app.yaml" (afterPrompt w appyaml m),
            Effect.stdout ((w.args.getD 1 "").toList ++ ['\n'])]
        ++ (pipeCmd w "appcfg.py" ["update", "--oauth2", "tailbone"]).effects⟩ := by
  rw [run_deploy_read w usage appyaml hr hread, hm]
  simp only [afterPrompt_version w appyaml m hm]

theorem written_deploy (w : World) (usage : List Effect) (appyaml : Text) (m : Match)
    (hr : deployReady w) (hread : w.readFile "app.yaml" = some appyaml)
    (hm : reApplication appyaml = some m) :
    written (run w usage "deploy").effects = [afterPrompt w appyaml m] := by
  rw [run_deploy_found w usage appyaml m hr hread hm]
  unfold pipeCmd
  by_cases hc : m.capture = DEFAULT_APPLICATION <;>
    by_cases hs : w.canStart "appcfg.py" = true <;> simp [hc, hs, written]

/-! ## Lines -/

theorem splitLines_append (a r : Text) (ha : '\n' ∉ a) :
    splitLines (a ++ r) = (a ++ (splitLines r).headD []) :: (splitLines r).tail := by
  induction a with
  | nil =>
    cases r with
    | nil => rfl
    | cons c cs =>
      simp only [List.nil_append]
      cases h : splitLines (c :: cs) with
      | nil =>
        exfalso
        simp only [splitLines] at h
        split at h
        · cases h
        · split at h <;> cases h
      | cons l ls => rfl
  | cons c cs ih =>
    have hc : c ≠ '\n' := fun h => ha (by simp [h])
    have hcs : '\n' ∉ cs := fun h => ha (by simp [h])
    have ih2 := ih hcs
    simp only [List.cons_append, splitLines, if_neg hc]
    show (match splitLines (cs ++ r) with
      | l :: ls => (c :: l) :: ls
      | [] => [[c]]) = _
    rw [ih2]

theorem ident_no_newline {x : Text} (h : ∀ c ∈ x, isIdentChar c = true) : '\n' ∉ x :=
  fun hm => absurd (h _ hm) (by decide)

theorem blank_no_newline {x : Text} (h : ∀ c ∈ x, isBlank c = true) : '\n' ∉ x :=
  fun hm => absurd (h _ hm) (by decide)

/-- A match never extends over a line break, and starts with the key. -/
theorem matchField_whole {key s : Text} {m : Match} (hk : '\n' ∉ key)
    (h : matchField key s = some m) : '\n' ∉ m.whole ∧ key <+: m.whole := by
  obtain ⟨b1, b2, -, hw, hb1, hb2, hcap, -⟩ := matchField_some h
  constructor
  · rw [hw]
    simp only [List.mem_append, not_or]
    exact ⟨⟨⟨hk, blank_no_newline hb1⟩, ident_no_newline hcap⟩, blank_no_newline hb2⟩
  · rw [hw]
    exact ⟨b1 ++ m.capture ++ b2, by simp⟩

theorem key_application_no_newline : '\n' ∉ "application:".toList := by decide

/-- A text the application pattern matches has a first line that begins with
`application:`. -/
theorem reApplication_first_line {s : Text} {m : Match} (h : reApplication s = some m) :
    ∃ l ls, splitLines s = l :: ls ∧ "application:".toList <+: l := by
  obtain ⟨hn, hp⟩ := matchField_whole key_application_no_newline h
  have hs := matchField_whole_rest h
  refine ⟨_, _, by rw [hs]; exact splitLines_append _ _ hn, ?_⟩
  exact hp.trans (List.prefix_append _ _)

/-! ## The claims that hold, with their witnesses -/

theorem key_application_space :
    "application: ".toList = "application:".toList ++ [' '] := by decide

/-- Outside the sentinel case the written text is the text read. -/
theorem afterPrompt_of_ne (w : World) (appyaml : Text) (m : Match)
    (h : m.capture ≠ DEFAULT_APPLICATION) : afterPrompt w appyaml m = appyaml := by
  simp [afterPrompt, h]

/-- In the sentinel case with a scanned token the written text is the
replacement followed by the text after the match. -/
theorem afterPrompt_of_scan (w : World) (appyaml : Text) (m : Match) (x : Text)
    (h : m.capture = DEFAULT_APPLICATION) (hs : w.scan = some x) :
    afterPrompt w appyaml m = "application:".toList ++ ' ' :: (x ++ m.rest) := by
  simp [afterPrompt, h, hs, key_application_space]

/-- The capture from a field that reads `key`, one space and then `y`: the
spaces and tabs `y` begins with are skipped, and the capture is the run of
letters, digits and hyphens that follows, if there is one. -/
theorem matchField_capture_space (key y : Text) :
    (matchField key (key ++ ' ' :: y)).map Match.capture =
      if (y.dropWhile isBlank).takeWhile isIdentChar = [] then none
      else some ((y.dropWhile isBlank).takeWhile isIdentChar) := by
  have hdw : (' ' :: y).dropWhile isBlank = y.dropWhile isBlank := by
    simp [List.dropWhile, show isBlank ' ' = true by decide]
  unfold matchField
  rw [dropLiteral_append]
  simp only [hdw]
  split <;> rfl

theorem sentinel_ne_nil : DEFAULT_APPLICATION ≠ [] := by decide

/-- Claim C4, amended: a deploy that passes its checks and captures an
application identifier from the text read returns no error and writes one text
to `app.yaml`. The identifier captured from the written text is the sentinel
exactly when the identifier captured from the text read was the sentinel and
the value the prompt leaves (the token read, or the sentinel itself when the
scan fails), followed by the text after the replaced match, has, after any
spaces and tabs it begins with, the sentinel as its run of letters, digits and
hyphens. -/
theorem deploy_sentinel_written_iff (w : World) (usage : List Effect) (appyaml : Text)
    (m : Match) (hr : deployReady w) (hread : w.readFile "app.yaml" = some appyaml)
    (hm : reApplication appyaml = some m) :
    (run w usage "deploy").err = none ∧
    ∃ text, written (run w usage "deploy").effects = [text] ∧
      ((reApplication text).map Match.capture = some DEFAULT_APPLICATION ↔
        m.capture = DEFAULT_APPLICATION ∧
        ((w.scan.getD DEFAULT_APPLICATION ++ m.rest).dropWhile isBlank).takeWhile isIdentChar =
          DEFAULT_APPLICATION) := by
  refine ⟨by rw [run_deploy_found w usage appyaml m hr hread hm], ?_⟩
  refine ⟨afterPrompt w appyaml m, written_deploy w usage appyaml m hr hread hm, ?_⟩
  by_cases hc : m.capture = DEFAULT_APPLICATION
  · have htext : afterPrompt w appyaml m =
        "application:".toList ++ ' ' :: (w.scan.getD DEFAULT_APPLICATION ++ m.rest) := by
      simp [afterPrompt, hc, key_application_space]
    rw [htext]
    unfold reApplication
    rw [matchField_capture_space "application:".toList]
    constructor
    · intro h
      refine ⟨hc, ?_⟩
      split at h
      · cases h
      · exact Option.some.inj h
    · rintro ⟨-, h⟩
      rw [h, if_neg sentinel_ne_nil]
  · rw [afterPrompt_of_ne w appyaml m hc, hm]
    constructor
    · intro h
      exact absurd (Option.some.inj h) hc
    · rintro ⟨h, -⟩
      exact absurd h hc

/-- Claim C5, amended: when deploy passes its checks, the identifier captured
from the text read is the sentinel, the text after the match (the field and
the spaces and tabs behind it) does not begin with a letter, digit or hyphen,
and the prompt supplies a non-empty token `x` of letters, digits and hyphens,
then deploy writes one text to `app.yaml`, and the application pattern
captures exactly `x` from it. -/
theorem deploy_sentinel_roundtrip (w : World) (usage : List Effect) (appyaml x : Text)
    (m : Match) (hr : deployReady w) (hread : w.readFile "app.yaml" = some appyaml)
    (hm : reApplication appyaml = some m) (hc : m.capture = DEFAULT_APPLICATION)
    (hrest : ∀ c, m.rest.head? = some c → isIdentChar c = false)
    (hs : w.scan = some x) (hx : x ≠ []) (hid : ∀ c ∈ x, isIdentChar c = true) :
    ∃ text m', written (run w usage "deploy").effects = [text] ∧
      reApplication text = some m' ∧ m'.capture = x := by
  obtain ⟨m', hm', hcap⟩ := matchField_rewritten "application:".toList x m.rest hx hid
  have hw := written_deploy w usage appyaml m hr hread hm
  rw [afterPrompt_of_scan w appyaml m x hc hs] at hw
  refine ⟨_, m', hw, hm', ?_⟩
  rw [hcap, takeWhile_of_head_false hrest, List.append_nil]

theorem key_application_space_no_newline : '\n' ∉ "application: ".toList := by decide

/-- Claim C6: when deploy passes its checks and locates the application field,
and the token read at the prompt holds no line break, deploy writes one text
to `app.yaml`; it has as many lines as the text read, and every line of the
text read that begins neither with `application:` nor with `version:` stands
unchanged at the same position. No condition on the version argument is
needed. -/
theorem deploy_passes_other_lines (w : World) (usage : List Effect) (appyaml : Text)
    (m : Match) (hr : deployReady w) (hread : w.readFile "app.yaml" = some appyaml)
    (hm : reApplication appyaml = some m) (hscan : ∀ x, w.scan = some x → '\n' ∉ x) :
    ∃ text, written (run w usage "deploy").effects = [text] ∧
      (splitLines text).length = (splitLines appyaml).length ∧
      ∀ (i : Nat) (l : Text), (splitLines appyaml)[i]? = some l →
        ¬ "application:".toList <+: l → ¬ "version:".toList <+: l →
        (splitLines text)[i]? = some l := by
  refine ⟨afterPrompt w appyaml m, written_deploy w usage appyaml m hr hread hm, ?_⟩
  by_cases hc : m.capture = DEFAULT_APPLICATION
  · obtain ⟨hn, hp⟩ := matchField_whole key_application_no_newline hm
    obtain ⟨-, -, -, -, -, -, hcap, -⟩ := matchField_some hm
    have hs := matchField_whole_rest hm
    have hx : '\n' ∉ w.scan.getD m.capture := by
      cases hsc : w.scan with
      | none => exact ident_no_newline hcap
      | some x => exact hscan x hsc
    have hnew : '\n' ∉ "application: ".toList ++ w.scan.getD m.capture := by
      simp only [List.mem_append, not_or]
      exact ⟨key_application_space_no_newline, hx⟩
    have h1 : splitLines (afterPrompt w appyaml m) =
        ("application: ".toList ++ w.scan.getD m.capture ++ (splitLines m.rest).headD []) ::
          (splitLines m.rest).tail := by
      simp only [afterPrompt, if_pos hc]
      exact splitLines_append _ _ hnew
    have h2 : splitLines appyaml =
        (m.whole ++ (splitLines m.rest).headD []) :: (splitLines m.rest).tail := by
      conv_lhs => rw [hs]
      exact splitLines_append _ _ hn
    rw [h1, h2]
    refine ⟨rfl, ?_⟩
    intro i l hl hna _
    cases i with
    | zero =>
      exfalso
      simp only [List.getElem?_cons_zero, Option.some.injEq] at hl
      exact hna (hl ▸ hp.trans (List.prefix_append _ _))
    | succ j => simpa using hl
  · rw [afterPrompt_of_ne w appyaml m hc]
    exact ⟨rfl, fun _ _ hl _ _ => hl⟩

/-- A missing entry is reported as not existing. -/
theorem stat_of_absent (w : World) (path : String) (h : w.entry path = .absent) :
    w.stat path = .notExist := by
  simp [World.stat, h]

/-- Claim C7, amended: for every world and every value of `flag.Usage`, when
`os.Stat` reports `tailbone` as missing, and so in particular when there is no
`tailbone` entry, `serve`, `deploy` and `update` each return the error "Must
run 'tailbone init' first." with an empty trace (nothing written, nothing
started, no other question asked of the world); when `os.Stat` succeeds on
`tailbone`, `init` returns "Tailbone is already initialized." with an empty
trace, whatever the answer for `.git`. -/
theorem marker_checked_first (w : World) (usage : List Effect) :
    (w.stat "tailbone" = .notExist →
      run w usage "serve" = ⟨some NotInitialized, []⟩ ∧
      run w usage "deploy" = ⟨some NotInitialized, []⟩ ∧
      run w usage "update" = ⟨some NotInitialized, []⟩) ∧
    (w.stat "tailbone" = .ok → run w usage "init" = ⟨some AlreadyInitialized, []⟩) ∧
    (w.entry "tailbone" = .absent →
      run w usage "serve" = ⟨some NotInitialized, []⟩ ∧
      run w usage "deploy" = ⟨some NotInitialized, []⟩ ∧
      run w usage "update" = ⟨some NotInitialized, []⟩) := by
  have hmissing : w.stat "tailbone" = .notExist →
      run w usage "serve" = ⟨some NotInitialized, []⟩ ∧
      run w usage "deploy" = ⟨some NotInitialized, []⟩ ∧
      run w usage "update" = ⟨some NotInitialized, []⟩ := by
    intro h
    refine ⟨?_, ?_, ?_⟩ <;> unfold run
    · rw [if_neg (by decide), if_pos rfl, if_pos h]
    · rw [if_neg (by decide), if_neg (by decide), if_pos rfl, if_pos h]
    · rw [if_neg (by decide), if_neg (by decide), if_neg (by decide), if_pos rfl, if_pos h]
  refine ⟨hmissing, ?_, fun h => hmissing (stat_of_absent w "tailbone" h)⟩
  intro h
  unfold run
  rw [if_pos rfl, if_pos h]

/-- Claim C8: when the checkout directory and `app.yaml` are not reported
missing and `appcfg.py` is found, deploy without a second argument, or with an
empty one, returns the error "Must provide a version name. Example: tailbone
deploy master" with an empty trace: no prompt, no subprocess, and `app.yaml`
holds afterwards what it held before. -/
theorem deploy_without_version (w : World) (usage : List Effect)
    (h1 : w.stat "tailbone" ≠ .notExist) (h2 : w.stat "app.yaml" ≠ .notExist)
    (h3 : w.lookPath "appcfg.py" = true) (h4 : w.args.getD 1 "" = "") :
    run w usage "deploy" = ⟨some MissingVersionArgument, []⟩ ∧
    ∀ before, appYamlAfter before (run w usage "deploy").effects = before := by
  have h3f : ¬ (w.lookPath "appcfg.py" = false) := by simp [h3]
  have hrun : run w usage "deploy" = ⟨some MissingVersionArgument, []⟩ := by
    unfold run
    rw [if_neg (by decide), if_neg (by decide), if_pos rfl, if_neg h1, if_neg h2, if_neg h3f]
    simp only [if_pos h4]
  refine ⟨hrun, fun before => ?_⟩
  rw [hrun]; rfl

/-- Claim C9: when deploy passes its first four checks and the text read from
`app.yaml` has no line that begins with `application:`, deploy returns the
error "Incorrectly formated app.yaml could not find application." with an
empty trace: no subprocess, and `app.yaml` holds afterwards what it held
before. -/
theorem deploy_without_application_line (w : World) (usage : List Effect) (appyaml : Text)
    (hr : deployReady w) (hread : w.readFile "app.yaml" = some appyaml)
    (hno : ∀ l ∈ splitLines appyaml, ¬ "application:".toList <+: l) :
    run w usage "deploy" = ⟨some MalformedDescriptor, []⟩ ∧
    appYamlAfter appyaml (run w usage "deploy").effects = appyaml := by
  have hnone : reApplication appyaml = none := by
    cases hm : reApplication appyaml with
    | none => rfl
    | some m =>
      exfalso
      obtain ⟨l, ls, hl, hp⟩ := reApplication_first_line hm
      exact hno l (by rw [hl]; simp) hp
  have hrun := run_deploy_malformed w usage appyaml hr hread hnone
  refine ⟨hrun, ?_⟩
  rw [hrun]; rfl

/-- Witness of C4 as amended: the sentinel descriptor answered with `my-app-123`. -/
theorem deploy_sentinel_written_iff_witness :
    deployReady worldAnswered ∧
    ((run worldAnswered tailboneUsage "deploy").err = none ∧
      ∃ text, written (run worldAnswered tailboneUsage "deploy").effects = [text] ∧
        ((reApplication text).map Match.capture = some DEFAULT_APPLICATION ↔
          sentinelMatch.capture = DEFAULT_APPLICATION ∧
          ((worldAnswered.scan.getD DEFAULT_APPLICATION ++ sentinelMatch.rest).dropWhile
            isBlank).takeWhile isIdentChar = DEFAULT_APPLICATION)) :=
  ⟨by decide,
    deploy_sentinel_written_iff worldAnswered tailboneUsage
      "application: your-application-id\nversion: old\n".toList sentinelMatch
      (by decide) rfl (by decide)⟩

/-- Witness of C5 as amended: the sentinel descriptor answered with `my-app-123`. -/
theorem deploy_sentinel_roundtrip_witness :
    deployReady worldAnswered ∧ sentinelMatch.capture = DEFAULT_APPLICATION ∧
    ∃ text m', written (run worldAnswered tailboneUsage "deploy").effects = [text] ∧
      reApplication text = some m' ∧ m'.capture = "my-app-123".toList :=
  ⟨by decide, by decide,
    deploy_sentinel_roundtrip worldAnswered tailboneUsage
      "application: your-application-id\nversion: old\n".toList "my-app-123".toList
      sentinelMatch (by decide) rfl (by decide) (by decide) (by decide) rfl (by decide)
      (by decide)⟩

/-- Witness of C6: the sentinel descriptor answered with `my-app-123`. -/
theorem deploy_passes_other_lines_witness :
    deployReady worldAnswered ∧
    ∃ text, written (run worldAnswered tailboneUsage "deploy").effects = [text] ∧
      (splitLines text).length =
        (splitLines "application: your-application-id\nversion: old\n".toList).length ∧
      ∀ (i : Nat) (l : Text),
        (splitLines "application: your-application-id\nversion: old\n".toList)[i]? = some l →
        ¬ "application:".toList <+: l → ¬ "version:".toList <+: l →
        (splitLines text)[i]? = some l :=
  ⟨by decide,
    deploy_passes_other_lines worldAnswered tailboneUsage
      "application: your-application-id\nversion: old\n".toList sentinelMatch
      (by decide) rfl (by decide)
      (fun x hx => by
        have hx2 : "my-app-123".toList = x := Option.some.inj hx
        rw [← hx2]; decide)⟩

/-- Witness of C7 as amended: `deploy` in a fresh repository, `init` in a
prepared project. -/
theorem marker_checked_first_witness :
    worldFreshRepo.entry "tailbone" = .absent ∧
    run worldFreshRepo tailboneUsage "deploy" = ⟨some NotInitialized, []⟩ ∧
    worldCustomised.stat "tailbone" = .ok ∧
    run worldCustomised tailboneUsage "init" = ⟨some AlreadyInitialized, []⟩ :=
  ⟨rfl, ((marker_checked_first worldFreshRepo tailboneUsage).2.2 rfl).2.1, rfl,
    (marker_checked_first worldCustomised tailboneUsage).2.1 rfl⟩

/-- Witness of C8: `deploy` alone in a prepared project. -/
theorem deploy_without_version_witness :
    worldNoVersion.args.getD 1 "" = "" ∧
    run worldNoVersion tailboneUsage "deploy" = ⟨some MissingVersionArgument, []⟩ ∧
    ∀ before, appYamlAfter before (run worldNoVersion tailboneUsage "deploy").effects = before :=
  ⟨rfl, deploy_without_version worldNoVersion tailboneUsage (by decide) (by decide) rfl rfl⟩

/-- Witness of C9: a descriptor without an application field. -/
theorem deploy_without_application_line_witness :
    deployReady worldNoField ∧
    run worldNoField tailboneUsage "deploy" = ⟨some MalformedDescriptor, []⟩ ∧
    appYamlAfter "runtime: python27\nversion: old\n".toList
      (run worldNoField tailboneUsage "deploy").effects = "runtime: python27\nversion: old\n".toList :=
  ⟨by decide,
    deploy_without_application_line worldNoField tailboneUsage
      "runtime: python27\nversion: old\n".toList (by decide) rfl (by decide)⟩

/-! ## Where the code departs from the claims -/

/-- Whatever the version argument, a deploy that locates the application
field writes a text the version pattern does not match at all: the version
substitution never takes place. -/
theorem deploy_version_untouched (w : World) (usage : List Effect) (appyaml : Text)
    (m : Match) (hr : deployReady w) (hread : w.readFile "app.yaml" = some appyaml)
    (hm : reApplication appyaml = some m) :
    ∃ text, written (run w usage "deploy").effects = [text] ∧ reVersion text = none ∧
      (m.capture ≠ DEFAULT_APPLICATION → text = appyaml) := by
  refine ⟨afterPrompt w appyaml m, written_deploy w usage appyaml m hr hread hm, ?_,
    afterPrompt_of_ne w appyaml m⟩
  unfold afterPrompt
  split
  · simp [reVersion_of_a, show "application: ".toList = 'a' :: "pplication: ".toList from rfl]
  · obtain ⟨t, rfl⟩ := reApplication_head hm
    exact reVersion_of_a t

/-- Claim C1, evaluated at a failing input: with `app.yaml` holding
`application: my-app-123` and `version: old`, `deploy v3` returns no error and
writes back the text it read; the written text still has the line
`version: old` and has no line `version: v3`. -/
theorem deploy_keeps_old_version :
    deployReady worldCustomised ∧
    (run worldCustomised tailboneUsage "deploy").err = none ∧
    written (run worldCustomised tailboneUsage "deploy").effects =
      ["application: my-app-123\nversion: old\n".toList] ∧
    "version: old".toList ∈ splitLines "application: my-app-123\nversion: old\n".toList ∧
    "version: v3".toList ∉ splitLines "application: my-app-123\nversion: old\n".toList := by
  decide

/-- A field at the very start of the text is located: after the key, any
spaces and tabs, and a non-empty identifier that is not continued by a further
letter, digit or hyphen, the capture is that identifier. -/
theorem matchField_complete (key b cap rest : Text) (hb : ∀ c ∈ b, isBlank c = true)
    (hcap : ∀ c ∈ cap, isIdentChar c = true) (hne : cap ≠ [])
    (hrest : ∀ c, rest.head? = some c → isIdentChar c = false) :
    ∃ m, matchField key (key ++ (b ++ (cap ++ rest))) = some m ∧ m.capture = cap := by
  have hhead : ∀ c, (cap ++ rest).head? = some c → isBlank c = false := by
    obtain ⟨a, t, rfl⟩ := List.exists_cons_of_ne_nil hne
    intro c hc
    simp only [List.cons_append, List.head?_cons, Option.some.injEq] at hc
    exact hc ▸ ident_not_blank (hcap a (by simp))
  have hdw : (b ++ (cap ++ rest)).dropWhile isBlank = cap ++ rest := by
    rw [List.dropWhile_append_of_pos hb, dropWhile_of_head_false hhead]
  have htk : (cap ++ rest).takeWhile isIdentChar = cap := by
    rw [List.takeWhile_append_of_pos hcap, takeWhile_of_head_false hrest, List.append_nil]
  have hm : (matchField key (key ++ (b ++ (cap ++ rest)))).map Match.capture = some cap := by
    unfold matchField
    rw [dropLiteral_append]
    simp only [hdw, htk]
    rw [if_neg hne]
    rfl
  cases hmf : matchField key (key ++ (b ++ (cap ++ rest))) with
  | none => rw [hmf] at hm; cases hm
  | some m =>
    rw [hmf] at hm
    exact ⟨m, rfl, by simpa using hm⟩

/-- The half of claim C2 that holds: when the text read begins with
`application:`, spaces and tabs, and an identifier, deploy captures that
identifier and returns no error. -/
theorem deploy_first_line_located (w : World) (usage : List Effect) (b cap rest : Text)
    (hr : deployReady w)
    (hread : w.readFile "app.yaml" = some ("application:".toList ++ (b ++ (cap ++ rest))))
    (hb : ∀ c ∈ b, isBlank c = true) (hcap : ∀ c ∈ cap, isIdentChar c = true)
    (hne : cap ≠ []) (hrest : ∀ c, rest.head? = some c → isIdentChar c = false) :
    (∃ m, reApplication ("application:".toList ++ (b ++ (cap ++ rest))) = some m ∧
      m.capture = cap) ∧
    (run w usage "deploy").err = none := by
  obtain ⟨m, hm, hc⟩ := matchField_complete "application:".toList b cap rest hb hcap hne hrest
  exact ⟨⟨m, hm, hc⟩, by rw [run_deploy_found w usage _ m hr hread hm]⟩

/-- Claim C2, evaluated at a failing input: with the application field on the
second line of `app.yaml`, deploy returns the error "Incorrectly formated
app.yaml could not find application." although a line of the text reads
`application: my-app-123`. -/
theorem deploy_misses_later_line :
    deployReady worldSecondLine ∧
    "application: my-app-123".toList ∈
      splitLines "runtime: python27\napplication: my-app-123\nversion: old\n".toList ∧
    run worldSecondLine tailboneUsage "deploy" = ⟨some MalformedDescriptor, []⟩ := by
  decide

/-- With no `tailbone` entry found, `.git` not reported missing and `git`
startable, `init` starts `git` once, and it returns no error exactly when
`os.Stat` finds `app/index.html`. -/
theorem init_checkout_once (w : World) (usage : List Effect)
    (h1 : w.stat "tailbone" ≠ .ok) (h2 : w.stat ".git" ≠ .notExist)
    (h3 : w.canStart "git" = true) :
    spawned (run w usage "init").effects = [("git", checkoutArgs)] ∧
    ((run w usage "init").err = none ↔ w.stat "app/index.html" = .ok) := by
  unfold run
  rw [if_pos rfl, if_neg h1, if_neg h2]
  simp only [pipeCmd, h3, if_true, ne_eq, not_true_eq_false, if_false]
  cases w.openTemplate <;> cases w.stat "app/index.html" <;>
    cases w.canCreate "app.yaml" <;> cases w.canCreate "app/index.html" <;>
    simp [spawned]

/-- Claim C3, evaluated at a failing input: in a fresh git repository (no
`tailbone`, no `app/index.html`, `.git` present, `git` startable) `init` starts
the checkout once, creates `app/index.html`, and then returns the error of the
earlier `os.Stat("app/index.html")`; the process exits with status 1. -/
theorem init_fresh_repo_fails :
    spawned (run worldFreshRepo tailboneUsage "init").effects = [("git", checkoutArgs)] ∧
    Effect.writeFile "app/index.html" INDEX_TEMPLATE ∈
      (run worldFreshRepo tailboneUsage "init").effects ∧
    (run worldFreshRepo tailboneUsage "init").err =
      some (Err.stat "app/index.html" .notExist) ∧
    (main worldFreshRepo).1 = 1 := by
  decide

/-- Claim C7, counterexample: `tailbone` exists as a symbolic link to itself,
so `os.Stat` fails on it with an error other than not-exist; `init` does not
return "Tailbone is already initialized." but starts the checkout and returns
no error, and the process exits with status 0. -/
theorem init_unresolved_marker :
    worldLoopingMarker.entry "tailbone" ≠ .absent ∧
    worldLoopingMarker.entry "tailbone" = .present .otherError ∧
    run worldLoopingMarker tailboneUsage "init" ≠ ⟨some AlreadyInitialized, []⟩ ∧
    run worldLoopingMarker tailboneUsage "init" =
      ⟨none, [Effect.spawn "git" checkoutArgs]⟩ ∧
    main worldLoopingMarker = (0, [Effect.spawn "git" checkoutArgs]) := by
  decide

/-- Claim C4, counterexample: the descriptor holds the sentinel and the prompt
reads nothing; deploy returns no error and writes back a text from which the
application pattern captures the sentinel. -/
theorem deploy_leaves_sentinel :
    deployReady worldNoAnswer ∧
    (run worldNoAnswer tailboneUsage "deploy").err = none ∧
    written (run worldNoAnswer tailboneUsage "deploy").effects =
      ["application: your-application-id\nversion: old\n".toList] ∧
    (reApplication "application: your-application-id\nversion: old\n".toList).map
      Match.capture = some DEFAULT_APPLICATION := by
  decide

/-- The sentinel is not always written back when nothing is read: followed by
a space and the word `foo`, the old identifier is glued to that word, and the
written text captures `your-application-idfoo`. -/
theorem deploy_no_answer_following_word :
    written (run (sampleWorld ["deploy", "v2"]
      "application: your-application-id foo\n".toList none) tailboneUsage "deploy").effects =
      ["application: your-application-idfoo\n".toList] ∧
    (reApplication "application: your-application-idfoo\n".toList).map Match.capture =
      some "your-application-idfoo".toList := by
  decide

/-- Claim C5, counterexample: the sentinel is followed by a space and the word
`foo`, the prompt reads `my-app`; deploy writes `application: my-appfoo`, and
the application pattern captures `my-appfoo` from the written text, not
`my-app`. -/
theorem deploy_joins_following_word :
    deployReady worldTrailingWord ∧
    (reApplication
      "application: your-application-id foo\nversion: old\n".toList).map Match.capture =
      some DEFAULT_APPLICATION ∧
    worldTrailingWord.scan = some "my-app".toList ∧
    written (run worldTrailingWord tailboneUsage "deploy").effects =
      ["application: my-appfoo\nversion: old\n".toList] ∧
    (reApplication "application: my-appfoo\nversion: old\n".toList).map Match.capture =
      some "my-appfoo".toList ∧
    "my-appfoo".toList ≠ "my-app".toList := by
  decide

/-- With no positional argument `main` prints what `flag.Usage` holds by
default and exits with status 1. -/
theorem main_no_arguments (w : World) (h : w.args = []) : main w = (1, defaultUsage w) := by
  simp [main, h]

/-- With a first positional argument that names no action, `main` prints
`USAGE_TEMPLATE` on standard output, does nothing else, and exits with
status 0. -/
theorem main_unrecognized (w : World) (cmd : String) (rest : List String)
    (h : w.args = cmd :: rest) (h1 : cmd ≠ "init") (h2 : cmd ≠ "serve")
    (h3 : cmd ≠ "deploy") (h4 : cmd ≠ "update") :
    main w = (0, [Effect.stdout USAGE_TEMPLATE]) := by
  have hrun : run w tailboneUsage cmd = ⟨none, tailboneUsage⟩ := by
    unfold run
    rw [if_neg h1, if_neg h2, if_neg h3, if_neg h4]
  unfold main
  rw [if_neg (by simp [h])]
  simp only [h, List.getD_cons_zero, hrun]
  rfl

/-- Claim C10, evaluated at a failing input: started as `tailbone` with no
argument, the process exits with status 1 after printing only the line
`Usage of tailbone:` on standard error; `USAGE_TEMPLATE` is not printed. With
the argument `version` it prints `USAGE_TEMPLATE` and exits with status 0. -/
theorem main_no_arguments_default_usage :
    main (sampleWorld [] [] none) = (1, [Effect.stderr "Usage of tailbone:\n".toList]) ∧
    Effect.stdout USAGE_TEMPLATE ∉ (main (sampleWorld [] [] none)).2 ∧
    main (sampleWorld ["version"] [] none) = (0, [Effect.stdout USAGE_TEMPLATE]) :=
  ⟨rfl, by decide, rfl⟩

end Tailbone
